import Mathlib

/-!
Verification development for the overcast-archive repository.

The repository contains two program variants:
  * `download_overcast_podcasts.py` (embedded below in namespace `Dop`):
    parses the Overcast OPML export, derives a filename from the enclosure
    URL and episode title, deduplicates via on-disk presence plus a JSON
    sidecar holding the overcast id, downloads with `urlretrieve` (system
    temp file) followed by `os.rename`, writes a JSON metadata sidecar and a
    once-per-day RSS feed snapshot, and drives a manually refilled pool of
    at most 5 in-flight downloads whose exceptions re-surface through
    `fut.result()`.
  * `overcast_archive.py` (embedded below in namespace `Oa`):
    filters episodes by the `played` attribute, deduplicates via a persisted
    set of URL hashes, prefixes filenames with a parsed publication date,
    and streams response bodies directly to the final media path.

Filesystems are modelled as partial maps from path strings to file values;
network transfer is an oracle argument so that success, failure and
mid-stream interruption can all be exercised.  Python level exceptions are
modelled with `Except`: an `Except.error` result is an exception escaping
the translated region of code.
-/

/-! ### Generic character and string helpers -/

/-- One step of character classification used by digit parsing. -/
def isDigitC (c : Char) : Bool := ('0' ≤ c) && (c ≤ '9')

/-- Numeric value of a digit character. -/
def digitVal (c : Char) : Nat := c.toNat - '0'.toNat

/-- Read exactly `n` digits, accumulating their value (CPython strptime
matches `%Y` with exactly four digits). -/
def readFixed : Nat → Nat → List Char → Option (Nat × List Char)
  | 0, acc, l => some (acc, l)
  | _ + 1, _, [] => none
  | n + 1, acc, c :: l =>
    if isDigitC c then readFixed n (acc * 10 + digitVal c) l else none

/-- Read one or two digits, greedily (CPython strptime `%m`, `%d`, `%H`,
`%M`, `%S` patterns all accept one or two digits; the following literal
separators are never digits, so greedy matching is equivalent). -/
def read12 : List Char → Option (Nat × List Char)
  | [] => none
  | [c] => if isDigitC c then some (digitVal c, []) else none
  | c :: d :: l =>
    if isDigitC c then
      if isDigitC d then some (digitVal c * 10 + digitVal d, l)
      else some (digitVal c, d :: l)
    else none

/-- Consume one expected literal character. -/
def litC (ch : Char) : List Char → Option (List Char)
  | [] => none
  | c :: l => if c = ch then some l else none

/-- Read a two-digit pair constrained to `[0-5]\d` (exactly two digits,
value at most 59), as the CPython `%z` pattern requires for the minute
and second components of an offset. -/
def readPair59 (l : List Char) : Option (Nat × List Char) :=
  match readFixed 2 0 l with
  | some (v, r) => if v ≤ 59 then some (v, r) else none
  | none => none

/-- Optional fractional seconds `\.\d{1,6}` of a `%z` offset: absent is
fine; a dot must be followed by one to six digits. -/
def readFrac : List Char → Option (List Char)
  | '.' :: r =>
    if 1 ≤ (r.takeWhile isDigitC).length ∧ (r.takeWhile isDigitC).length ≤ 6 then
      some (r.drop (r.takeWhile isDigitC).length)
    else none
  | l => some l

/-- Consume a `%z` timezone designator, following the CPython strptime
pattern `[+-]\d\d:?[0-5]\d(:?[0-5]\d(\.\d{1,6})?)?|Z`: the letter `Z`, or
a sign, a two-digit hour, a mandatory minute pair in `[0-5]\d` optionally
preceded by a colon, then an optional second pair in `[0-5]\d` (with a
colon exactly when the minutes had one) and an optional fraction.
`datetime.timezone` additionally requires the offset to stay below 24
hours, so hours above 23 are rejected (strptime raises `ValueError` for
them too).  Offset strings whose colon use is inconsistent fail in
CPython during conversion or leave unconverted data behind; here they
leave unconsumed characters, which `parseOaDate` rejects - the same
parseable/unparseable boundary. -/
def parseZ : List Char → Option (List Char)
  | [] => none
  | 'Z' :: l => some l
  | c :: l =>
    if c = '+' ∨ c = '-' then
      match readFixed 2 0 l with
      | none => none
      | some (hh, r1) =>
        if hh ≤ 23 then
          match r1 with
          | ':' :: r2 =>
            match readPair59 r2 with
            | none => none
            | some (_, r3) =>
              match r3 with
              | ':' :: r4 =>
                match readPair59 r4 with
                | none => none
                | some (_, r5) => readFrac r5
              | _ => some r3
          | _ =>
            match readPair59 r1 with
            | none => none
            | some (_, r3) =>
              match readPair59 r3 with
              | some (_, r5) => readFrac r5
              | none => some r3
        else none
    else none

/-- Gregorian leap-year test (as validated by `datetime`). -/
def isLeap (y : Nat) : Bool := (y % 4 == 0 && y % 100 != 0) || y % 400 == 0

/-- Number of days in a month (as validated by `datetime`). -/
def daysInMonth (y m : Nat) : Nat :=
  if m = 2 then (if isLeap y then 29 else 28)
  else if m = 4 ∨ m = 6 ∨ m = 9 ∨ m = 11 then 30 else 31

/-- A calendar date (the fields of the parsed datetime used by the
programs: only the date part is ever formatted back out). -/
structure Ymd where
  year : Nat
  month : Nat
  day : Nat
deriving DecidableEq

/-- `datetime.strptime(pub_date, "%Y-%m-%dT%H:%M:%S%z")`, keeping the date
part.  The whole input must be consumed (strptime raises `ValueError` on
unconverted trailing data) and the field ranges must be valid. -/
def parseOaDate (s : String) : Option Ymd :=
  match readFixed 4 0 s.data with
  | none => none
  | some (y, r1) =>
  match litC '-' r1 with
  | none => none
  | some r2 =>
  match read12 r2 with
  | none => none
  | some (m, r3) =>
  match litC '-' r3 with
  | none => none
  | some r4 =>
  match read12 r4 with
  | none => none
  | some (d, r5) =>
  match litC 'T' r5 with
  | none => none
  | some r6 =>
  match read12 r6 with
  | none => none
  | some (hh, r7) =>
  match litC ':' r7 with
  | none => none
  | some r8 =>
  match read12 r8 with
  | none => none
  | some (mi, r9) =>
  match litC ':' r9 with
  | none => none
  | some r10 =>
  match read12 r10 with
  | none => none
  | some (ss, r11) =>
  match parseZ r11 with
  | none => none
  | some rest =>
  if rest.isEmpty ∧ 1 ≤ y ∧ 1 ≤ m ∧ m ≤ 12 ∧ 1 ≤ d ∧ d ≤ daysInMonth y m ∧
      hh ≤ 23 ∧ mi ≤ 59 ∧ ss ≤ 59 then
    some ⟨y, m, d⟩
  else none

/-- Zero-pad to two digits (strftime `%m`, `%d`). -/
def pad2 (n : Nat) : String := if n < 10 then "0" ++ toString n else toString n

/-- Zero-pad to four digits (strftime `%Y`). -/
def pad4 (n : Nat) : String :=
  if n < 10 then "000" ++ toString n
  else if n < 100 then "00" ++ toString n
  else if n < 1000 then "0" ++ toString n
  else toString n

/-- `dt.strftime("%Y-%m-%d")`. -/
def fmtYmd (d : Ymd) : String := pad4 d.year ++ "-" ++ pad2 d.month ++ "-" ++ pad2 d.day

/-- Suffix after the last slash (the basename used by `os.path.splitext`). -/
def afterLastSlash (l : List Char) : List Char :=
  (l.reverse.takeWhile (fun c => c != '/')).reverse

/-- Count of leading dots of a basename (`os.path.splitext` refuses to
split when every character before the candidate dot is itself a dot). -/
def countLeadingDots : List Char → Nat
  | '.' :: l => countLeadingDots l + 1
  | _ => 0

/-- `os.path.splitext(p)[-1]`: the extension including its dot, empty when
the basename carries no usable dot. -/
def splitextExt (p : String) : String :=
  let base := afterLastSlash p.data
  let extRev := base.reverse.takeWhile (fun c => c != '.')
  if extRev.length = base.length then ""
  else if countLeadingDots base < base.length - extRev.length - 1 then
    ⟨'.' :: extRev.reverse⟩
  else ""

/-- `urlparse(url).path` for the hierarchical http(s)-style URLs handled by
this repository: the component after the authority, cut at a query or
fragment; absent a `://` scheme separator the whole string (cut at a query
or fragment) is the path. -/
def dropScheme : List Char → Option (List Char)
  | [] => none
  | ':' :: '/' :: '/' :: rest => some rest
  | _ :: rest => dropScheme rest

/-- Path component of a URL, see `dropScheme`. -/
def urlPathOf (url : String) : String :=
  match dropScheme url.data with
  | some rest =>
    ⟨(rest.dropWhile (fun c => c != '/')).takeWhile (fun c => !(c == '?' || c == '#'))⟩
  | none => ⟨url.data.takeWhile (fun c => !(c == '?' || c == '#'))⟩

/-- One pass of Python `str.replace` on character lists, replacing every
non-overlapping occurrence of `pat` left to right.  The fuel argument is
the length of the scanned list, which bounds the recursion. -/
def replaceFuel (pat rep : List Char) : Nat → List Char → List Char
  | _, [] => []
  | 0, l => l
  | n + 1, c :: rest =>
    if pat ≠ [] ∧ pat.isPrefixOf (c :: rest) then
      rep ++ replaceFuel pat rep n (List.drop (pat.length - 1) rest)
    else
      c :: replaceFuel pat rep n rest

/-- Python `s.replace(pat, rep)` (for the nonempty patterns the code uses). -/
def pyReplace (s pat rep : String) : String :=
  ⟨replaceFuel pat.data rep.data s.data.length s.data⟩

/-! ### download_overcast_podcasts.py -/

namespace Dop

/-- Character step of `_escape`: the source performs
`s.replace(":", "-").replace("/", "-")`; because the replacement `-` is
neither pattern character, the two sequential single-character replaces
equal this single character map. -/
def escChar (c : Char) : Char :=
  if c = ':' then '-' else if c = '/' then '-' else c

/-- `_escape` (line 129). -/
def _escape (s : String) : String := ⟨s.data.map escChar⟩

/-- `get_filename` (lines 133-139). -/
def get_filename (download_url title : String) : String :=
  let url_path := urlPathOf download_url
  let extension := splitextExt url_path
  let base_name := _escape title
  base_name ++ extension

/-- A file in the output tree.  The JSON sidecar is modelled by the field
the program later reads back, `episode["overcast_id"]`; any other file is
raw bytes (`media`), which `json.load` refuses to parse. -/
inductive DFile where
  | media (body : String)
  | json (overcastId : String)
deriving DecidableEq

/-- The output tree: a partial map from absolute path strings to files. -/
abbrev Fs := String → Option DFile

/-- Write (create or truncate) a file. -/
def Fs.set (fs : Fs) (p : String) (v : DFile) : Fs :=
  fun q => if q = p then some v else fs q

/-- The empty output tree. -/
def emptyFs : Fs := fun _ => none

/-- Result of one network transfer: `ok body` is a completed response,
`fail left` is a raised exception, with `left` the partial payload that a
mid-stream interruption leaves in the system temp file (outside the
output tree). -/
inductive FetchRes where
  | ok (body : String)
  | fail (leftover : Option String)

/-- One episode record as produced by `get_episodes` (lines 95-115); the
attribute lookups return `None` when absent, hence the `Option` on the
enclosure URL, which is the only field the downloader guards against. -/
structure Episode where
  podcastTitle : String
  podcastXmlUrl : String
  title : String
  overcastId : String
  pubDate : Option String
  enclosureUrl : Option String
deriving DecidableEq

/-- `download_url` (lines 142-155): `urlretrieve` downloads to a file in
the system temp directory (outside the output tree), and only after a
fully successful transfer does `os.rename` move it to `path`.  On an
exception the error is logged and the output tree is untouched; the
second component reports the temp-file leftover of an interruption. -/
def download_url (fetch : String → FetchRes) (url path : String) (fs : Fs) :
    Fs × Option String :=
  match fetch url with
  | .fail leftover => (fs, leftover)
  | .ok body => (Fs.set fs path (DFile.media body), none)

/-- Per-podcast directory (line 172). -/
def podcastDirOf (dlDir : String) (ep : Episode) : String :=
  dlDir ++ "/" ++ _escape ep.podcastTitle

/-- Media path computed from a present enclosure URL (lines 168, 176). -/
def mediaPathOf (dlDir : String) (ep : Episode) (audioUrl : String) : String :=
  podcastDirOf dlDir ep ++ "/" ++ get_filename audioUrl ep.title

/-- Media path of an episode (enclosure URL defaulted for statements). -/
def mediaPathD (dlDir : String) (ep : Episode) : String :=
  mediaPathOf dlDir ep (ep.enclosureUrl.getD "")

/-- JSON sidecar path (lines 177-178). -/
def jsonPathOf (dlDir : String) (ep : Episode) : String :=
  podcastDirOf dlDir ep ++ "/" ++ (_escape ep.title ++ ".json")

/-- Daily feed snapshot path (lines 218-222); `today` is the fixed value
of `datetime.datetime.now().strftime("%Y-%m-%d")` for the run. -/
def feedPathOf (today dlDir : String) (ep : Episode) : String :=
  podcastDirOf dlDir ep ++ "/" ++ ("feed." ++ today ++ ".xml")

/-- `save_rss_feed` (lines 217-232): skip when the daily snapshot already
exists, otherwise download the feed XML to it. -/
def save_rss_feed (fetch : String → FetchRes) (today dlDir : String)
    (ep : Episode) (fs : Fs) : Fs :=
  if (fs (feedPathOf today dlDir ep)).isSome then fs
  else (download_url fetch ep.podcastXmlUrl (feedPathOf today dlDir ep) fs).1

/-- Terminal outcome of one episode, the observable summary of lines
196-204 (the source logs rather than returns these). -/
inductive DOutcome where
  | downloaded
  | skipped
  | failed
deriving DecidableEq

/-- Lines 200-214: download the media (errors are caught inside
`download_url` and logged), then unconditionally write the JSON sidecar
and refresh the daily feed snapshot. -/
def fetchAndRecord (fetch : String → FetchRes) (today dlDir : String)
    (fs : Fs) (ep : Episode) (audioUrl dp jp : String) :
    Except String (Fs × DOutcome) :=
  let fs1 := (download_url fetch audioUrl dp fs).1
  let fs2 := Fs.set fs1 jp (DFile.json ep.overcastId)
  let fs3 := save_rss_feed fetch today dlDir ep fs2
  match fetch audioUrl with
  | .ok _ => .ok (fs3, .downloaded)
  | .fail _ => .ok (fs3, .failed)

/-- `download_episode` (lines 158-214).  A `None` enclosure URL raises a
`TypeError` inside `get_filename` (`urlparse(None)` coerces to a bytes
result whose empty-bytes extension cannot be concatenated to the `str`
base name) - there is no missing-URL guard in this variant.  When the
media path already exists the sidecar is read back (`json.load(open(...))`
raises `FileNotFoundError` when absent and `JSONDecodeError` on non-JSON
bytes); a differing cached overcast id triggers the `.mp3` disambiguation
of lines 191-194; an existing final path is skipped (lines 197-199). -/
def download_episode (fetch : String → FetchRes) (today dlDir : String)
    (fs : Fs) (ep : Episode) : Except String (Fs × DOutcome) :=
  match ep.enclosureUrl with
  | none => .error "TypeError: can only concatenate str (not bytes) to str"
  | some audioUrl =>
    match fs (mediaPathOf dlDir ep audioUrl) with
    | some _ =>
      match fs (jsonPathOf dlDir ep) with
      | none => .error "FileNotFoundError: no json sidecar at json_path"
      | some (.media _) => .error "json.decoder.JSONDecodeError"
      | some (.json cachedId) =>
        if cachedId = ep.overcastId then
          .ok (fs, .skipped)
        else
          let fn2 := pyReplace (get_filename audioUrl ep.title) ".mp3"
            ("_" ++ ep.overcastId ++ ".mp3")
          let dp2 := podcastDirOf dlDir ep ++ "/" ++ fn2
          if (fs dp2).isSome then .ok (fs, .skipped)
          else fetchAndRecord fetch today dlDir fs ep audioUrl dp2 (dp2 ++ ".json")
    | none =>
      fetchAndRecord fetch today dlDir fs ep audioUrl
        (mediaPathOf dlDir ep audioUrl) (jsonPathOf dlDir ep)

/-- The driver loop of `__main__` (lines 250-270) at the level of the
filesystem: episodes are processed from the backlog, and any exception
escaping `download_episode` re-surfaces through `fut.result()` (line 265),
terminating the run with the remaining backlog unprocessed.  (The
interleaving of the worker pool is modelled separately in namespace
`Pool`; the on-disk effect of a completed run is order-insensitive under
the separation hypotheses used below.) -/
def run (fetch : String → FetchRes) (today dlDir : String) :
    Fs → List Episode → Except String (Fs × List DOutcome)
  | fs, [] => .ok (fs, [])
  | fs, ep :: rest =>
    match download_episode fetch today dlDir fs ep with
    | .error e => .error e
    | .ok (fs1, o) =>
      match run fetch today dlDir fs1 rest with
      | .error e => .error e
      | .ok (fs2, os) => .ok (fs2, o :: os)

/-- `max_parallel_downloads` (line 251). -/
def max_parallel_downloads : Nat := 5

end Dop

/-! ### overcast_archive.py -/

namespace Oa

/-- Character class of `re.sub(r'[<>:"/\\|?*]', ' ', filename)`. -/
def sanBad (c : Char) : Bool :=
  c == '<' || c == '>' || c == ':' || c == '\"' || c == '/' ||
  c == '\\' || c == '|' || c == '?' || c == '*'

/-- Character step of `sanitize_filename`. -/
def sanChar (c : Char) : Char := if sanBad c then ' ' else c

/-- `PodcastDownloader.sanitize_filename` (lines 18-21). -/
def sanitize_filename (filename : String) : String := ⟨filename.data.map sanChar⟩

/-- `PodcastDownloader.hash_url` (lines 23-25): a deterministic fingerprint
of the URL.  The sha256 hex digest is modelled by an injective tagging,
adequate because the program only uses the digest as a set/log key. -/
def hash_url (url : String) : String := "sha256-" ++ url

/-- One `outline` element as seen through BeautifulSoup: attribute lookups
return `None` (here `Option.none`) when the attribute is absent. -/
structure Episode where
  played : Option String
  title : Option String
  pubDate : Option String
  enclosureUrl : Option String
deriving DecidableEq

/-- Mutable on-disk state: the output tree and the appended lines of
`downloaded_episodes.txt`.  The in-memory set loaded at startup is passed
separately (the code never updates it during a run). -/
structure State where
  fs : Dop.Fs
  log : List String

/-- Result of `requests.get(..., stream=True)`: a non-success status
(`raise_for_status` fires before the output file is opened), a mid-stream
interruption after some chunks were delivered, or a complete body. -/
inductive Fetch where
  | badStatus
  | interrupted (delivered : List String)
  | ok (chunks : List String)

/-- Observable outcome of one episode (the source prints rather than
returns these). -/
inductive Outcome where
  | notPlayed
  | noUrl
  | alreadyExists
  | downloaded
  | failed
deriving DecidableEq

/-- Concatenation of the streamed chunks written to the open file. -/
def joinChunks (l : List String) : String := l.foldl (fun a b => a ++ b) ""

/-- Diagnostic of line 40. -/
def noUrlMsg (ep : Episode) : String :=
  "No URL found for the episode " ++ ep.title.getD "" ++ ". Skipping."

/-- Diagnostic of line 55. -/
def dateDiag (pubDate title : String) : String :=
  "Could not parse date " ++ pubDate ++ " for episode " ++ title

/-- Lines 48-55: try to parse `pubDate`; on success format it as
`YYYY-MM-DD`, otherwise keep the empty string and emit a diagnostic. -/
def formatDate (pubDate title : String) : String × List String :=
  match parseOaDate pubDate with
  | some d => (fmtYmd d, [])
  | none => ("", [dateDiag pubDate title])

/-- Lines 48-58: the resolved media path
`os.path.join(podcast_dir, f"(date) (sanitized title).mp3")` together with
the date diagnostics. -/
def mp3Path (podcastDir pubDate title : String) : String × List String :=
  let fd := formatDate pubDate title
  (podcastDir ++ "/" ++ (fd.1 ++ " " ++ sanitize_filename title ++ ".mp3"), fd.2)

/-- `PodcastDownloader.download_episode` (lines 35-71).  `mem` is the
in-memory set loaded from `downloaded_episodes.txt` at startup.  Raw
`episode['title']` subscripts raise `KeyError` when the attribute is
absent; `episode.get(...)` lookups default instead.  The streamed download
opens the final media path directly, so an interruption leaves the
already-delivered chunks at that final path; the URL hash is appended to
the log only after a fully successful transfer. -/
def download_episode (fetch : String → Fetch) (mem : List String)
    (podcastDir : String) (st : State) (ep : Episode) :
    Except String (State × List String × Outcome) :=
  if ep.played = some "1" then
    match ep.enclosureUrl with
    | none => .ok (st, [noUrlMsg ep], .noUrl)
    | some mp3Url =>
      if hash_url mp3Url ∈ mem then
        match ep.title with
        | none => .error "KeyError: title"
        | some t => .ok (st, ["Episode " ++ t ++ " already exists. Skipping."], .alreadyExists)
      else
        match ep.title with
        | none => .error "KeyError: title"
        | some t =>
          let pf := mp3Path podcastDir (ep.pubDate.getD "") t
          let dlMsg := "Downloading " ++ t ++ "..."
          match fetch mp3Url with
          | .badStatus =>
            .ok (st, pf.2 ++ [dlMsg, "Failed to download the episode " ++ t], .failed)
          | .interrupted delivered =>
            .ok ({ fs := Dop.Fs.set st.fs pf.1 (Dop.DFile.media (joinChunks delivered)),
                   log := st.log },
                 pf.2 ++ [dlMsg, "Failed to download the episode " ++ t], .failed)
          | .ok chunks =>
            .ok ({ fs := Dop.Fs.set st.fs pf.1 (Dop.DFile.media (joinChunks chunks)),
                   log := st.log ++ [hash_url mp3Url] },
                 pf.2 ++ [dlMsg], .downloaded)
  else
    .ok (st, [], .notPlayed)

end Oa

/-! ### The bounded worker pool of the Dop driver loop (lines 250-270)

Counting abstraction of the manual refill loop: `max_parallel_downloads`
episodes are submitted up front via `itertools.islice`; each
`concurrent.futures.wait(..., FIRST_COMPLETED)` returns some nonempty set
of completed futures, and exactly as many new episodes (as remain) are
submitted in their place. -/

namespace Pool

/-- Counts of backlog episodes, in-flight fetches and finished episodes,
plus whether the driver has aborted (an exception re-raised by
`fut.result()` escaped the loop). -/
structure St where
  pending : Nat
  inflight : Nat
  finished : Nat
  aborted : Bool
deriving DecidableEq

/-- Initial state: `n` pending episodes, `w` submitted up front. -/
def init (n w : Nat) : St := ⟨n - min n w, min n w, 0, false⟩

/-- One iteration of the `while futures:` loop.  `wait`: a nonempty set
of `d` in-flight downloads completes, every `fut.result()` call returns,
and `min d pending` fresh episodes are submitted in their place.
`abort`: a completed future raised, `fut.result()` re-raises out of the
loop; the executor shutdown still lets the current in-flight downloads
run to completion, but the remaining backlog is never submitted and never
reaches an outcome. -/
inductive Step : St → St → Prop
  | wait (s : St) (d : Nat) (h1 : 1 ≤ d) (h2 : d ≤ s.inflight)
      (h3 : s.aborted = false) :
      Step s ⟨s.pending - min d s.pending,
              s.inflight - d + min d s.pending,
              s.finished + d, false⟩
  | abort (s : St) (h1 : 1 ≤ s.inflight) (h2 : s.aborted = false) :
      Step s ⟨s.pending, 0, s.finished + s.inflight, true⟩

/-- Reflexive-transitive closure of `Step`. -/
inductive Reach : St → St → Prop
  | refl (s : St) : Reach s s
  | tail {s t u : St} : Reach s t → Step t u → Reach s u

end Pool

/-- Twenty pending episodes (the fourth lacking its enclosure URL) for
the C4 abort scenario. -/
def c4Episodes : List Dop.Episode :=
  (List.range 20).map fun i =>
    ⟨"P", "https://example.org/feed.xml", "Ep " ++ toString i, toString i, none,
      if i = 3 then none
      else some ("https://example.net/files/" ++ toString i ++ ".mp3")⟩

/-! ### Helper lemmas -/

theorem Fs_set_same (fs : Dop.Fs) (p : String) (v : Dop.DFile) :
    Dop.Fs.set fs p v p = some v := by
  simp [Dop.Fs.set]

theorem Fs_set_other (fs : Dop.Fs) (p q : String) (v : Dop.DFile) (h : q ≠ p) :
    Dop.Fs.set fs p v q = fs q := by
  simp [Dop.Fs.set, h]

theorem map_idem {f : Char → Char} (hf : ∀ c, f (f c) = f c) :
    ∀ l : List Char, (l.map f).map f = l.map f
  | [] => rfl
  | c :: l => by simp [map_idem hf l, hf c]

theorem escChar_idem (c : Char) : Dop.escChar (Dop.escChar c) = Dop.escChar c := by
  unfold Dop.escChar
  by_cases h1 : c = ':'
  · subst h1; decide
  · by_cases h2 : c = '/'
    · subst h2; decide
    · simp [h1, h2]

theorem sanChar_idem (c : Char) : Oa.sanChar (Oa.sanChar c) = Oa.sanChar c := by
  unfold Oa.sanChar
  by_cases h : Oa.sanBad c
  · simp [h]
  · simp [h]

/-! ### C7: filename derivation example -/

/-- C7: given media URL `https://example.net/files/1.mp3` and title
`Episode 1: My Show`, `get_filename` sanitizes `:` (and `/`, second
conjunct) to `-` and keeps the `.mp3` extension taken from the URL path,
yielding exactly `Episode 1- My Show.mp3`. -/
theorem filename_sanitization_example :
    Dop.get_filename "https://example.net/files/1.mp3" "Episode 1: My Show" =
      "Episode 1- My Show.mp3" ∧
    Dop._escape "a/b:c" = "a-b-c" := by
  constructor <;> rfl

/-! ### C10: sanitization is idempotent -/

/-- C10: both sanitizers are idempotent - `_escape` maps `:` and `/` to
`-`, which is outside its replaced set, and `sanitize_filename` maps its
character class to a space, which is outside the class. -/
theorem sanitization_idempotent (s : String) :
    Dop._escape (Dop._escape s) = Dop._escape s ∧
    Oa.sanitize_filename (Oa.sanitize_filename s) = Oa.sanitize_filename s := by
  constructor
  · exact congrArg String.mk (map_idem escChar_idem s.data)
  · exact congrArg String.mk (map_idem sanChar_idem s.data)

/-! ### C5: played-flag filtering -/

/-- C5: in the schema variant carrying a played indicator
(`overcast_archive.py`), an episode whose `played` attribute is absent or
differs from `"1"` is excluded entirely: `download_episode` returns with
the state unchanged, no diagnostics, and - the result being independent of
the fetch oracle - no fetch is performed and no file is written. -/
theorem oa_unplayed_episode_untouched (fetch : String → Oa.Fetch)
    (mem : List String) (podcastDir : String) (st : Oa.State) (ep : Oa.Episode)
    (h : ep.played ≠ some "1") :
    Oa.download_episode fetch mem podcastDir st ep =
      .ok (st, [], Oa.Outcome.notPlayed) := by
  simp [Oa.download_episode, h]

/-- Witness for C5 at a concrete unplayed episode. -/
theorem oa_unplayed_episode_untouched_witness :
    Oa.download_episode (fun _ => Oa.Fetch.badStatus) [] "podcasts/P"
      ⟨Dop.emptyFs, []⟩
      ⟨none, some "Ep", none, some "https://example.net/files/1.mp3"⟩ =
      .ok (⟨Dop.emptyFs, []⟩, [], Oa.Outcome.notPlayed) :=
  oa_unplayed_episode_untouched _ _ _ _ _ (by decide)

/-! ### C2: no partial artifact at the final media path -/

/-- C2 counterexample: in `overcast_archive.py` the response body is
streamed directly to the final media path, so a mid-stream failure (after
one chunk `"abc"` here) leaves a partial file at the final media path
`podcasts/P/2001-01-01 Ep.mp3` while the outcome is a caught failure -
contradicting the claim that after any failed fetch the final media path
does not exist. -/
theorem oa_failed_fetch_leaves_final_file :
    (Oa.download_episode (fun _ => Oa.Fetch.interrupted ["abc"]) [] "podcasts/P"
        ⟨Dop.emptyFs, []⟩
        ⟨some "1", some "Ep", some "2001-01-01T01:01:01-00:00",
         some "https://example.net/files/1.mp3"⟩).map
      (fun r => (r.1.fs "podcasts/P/2001-01-01 Ep.mp3", r.2.2)) =
      .ok (some (Dop.DFile.media "abc"), Oa.Outcome.failed) := by
  rfl

/-- C2 amended: in `download_overcast_podcasts.py` the body is fetched by
`urlretrieve` into a system temp file and only renamed to the final path
on full success, so any failed or interrupted fetch leaves the output tree
(and in particular the final media path) untouched; the
`overcast_archive.py` variant instead streams to the final path and can
leave a partial file there (see the counterexample). -/
theorem dop_failed_fetch_final_path_untouched (fetch : String → Dop.FetchRes)
    (url path : String) (fs : Dop.Fs) (left : Option String)
    (h : fetch url = .fail left) :
    (Dop.download_url fetch url path fs).1 = fs := by
  simp [Dop.download_url, h]

/-- Witness for the amended C2 at a concrete interrupted fetch. -/
theorem dop_failed_fetch_final_path_untouched_witness :
    (Dop.download_url (fun _ => Dop.FetchRes.fail (some "par"))
      "https://example.net/files/1.mp3" "audiofiles/P/Ep.mp3" Dop.emptyFs).1 =
      Dop.emptyFs :=
  dop_failed_fetch_final_path_untouched _ _ _ _ (some "par") rfl

/-! ### C6: missing media URL -/

/-- C6 counterexample: in `download_overcast_podcasts.py` there is no
missing-URL guard - an episode whose `enclosureUrl` attribute is absent
raises a `TypeError` inside `get_filename`, which `fut.result()`
re-raises, aborting the whole run: the sibling episode in the backlog is
never processed.  This contradicts the claim that a missing media URL is
always skipped with a diagnostic and never aborts the run. -/
theorem dop_missing_url_aborts_run :
    Dop.run (fun _ => Dop.FetchRes.ok "body") "2026-10-12" "audiofiles" Dop.emptyFs
      [⟨"P", "https://example.org/feed.xml", "Ep One", "111",
        some "2001-01-01T01:01:01-00:00", none⟩,
       ⟨"P", "https://example.org/feed.xml", "Ep Two", "222", none,
        some "https://example.net/files/2.mp3"⟩] =
      .error "TypeError: can only concatenate str (not bytes) to str" := by
  rfl

/-- C6 amended: only the `overcast_archive.py` variant guards the missing
media URL: a played episode without `enclosureUrl` is skipped with the
`No URL found` diagnostic and processing returns normally with the state
unchanged. -/
theorem oa_missing_url_skips_normally (fetch : String → Oa.Fetch)
    (mem : List String) (podcastDir : String) (st : Oa.State) (ep : Oa.Episode)
    (hp : ep.played = some "1") (hu : ep.enclosureUrl = none) :
    Oa.download_episode fetch mem podcastDir st ep =
      .ok (st, [Oa.noUrlMsg ep], Oa.Outcome.noUrl) := by
  simp [Oa.download_episode, hp, hu]

/-- Witness for the amended C6 at a concrete URL-less episode. -/
theorem oa_missing_url_skips_normally_witness :
    Oa.download_episode (fun _ => Oa.Fetch.badStatus) [] "podcasts/P"
      ⟨Dop.emptyFs, []⟩ ⟨some "1", some "Ep", none, none⟩ =
      .ok (⟨Dop.emptyFs, []⟩,
           [Oa.noUrlMsg ⟨some "1", some "Ep", none, none⟩], Oa.Outcome.noUrl) :=
  oa_missing_url_skips_normally _ _ _ _ _ rfl rfl

/-! ### C8: date prefixing -/

/-- C3 counterexample: in `download_overcast_podcasts.py` only fetch
errors are caught; malformed per-episode state raises through the episode
boundary and `fut.result()` re-raises it in the driver loop.  Here the
first episode's media file exists on disk but its JSON sidecar is missing,
so `json.load(open(json_path))` raises `FileNotFoundError` and the run
aborts with the second episode never processed - contradicting the claim
that every per-episode error is converted into an outcome and never ends
the run. -/
theorem dop_sidecar_error_aborts_run :
    Dop.run (fun _ => Dop.FetchRes.ok "body") "2026-10-12" "dl"
      (Dop.Fs.set Dop.emptyFs "dl/P/Ep.mp3" (Dop.DFile.media "stray"))
      [⟨"P", "https://example.org/feed.xml", "Ep", "111", none,
        some "https://example.net/files/Ep.mp3"⟩,
       ⟨"P", "https://example.org/feed.xml", "Other", "222", none,
        some "https://example.net/files/Other.mp3"⟩] =
      .error "FileNotFoundError: no json sidecar at json_path" := by
  rfl

/-- C3 amended: fetch (network/stream) errors are indeed contained in both
variants: in `download_overcast_podcasts.py` the whole download step of
`download_episode` (lines 200-214) returns normally whatever the fetch
result, yielding `failed` on a raised fetch and `downloaded` on success;
and in `overcast_archive.py`, `download_episode` on an episode whose
`title` attribute is present always returns normally, whatever the fetch
oracle does.  Errors arising outside the fetch, however, are not
contained in `download_overcast_podcasts.py` (see the counterexample). -/
theorem fetch_errors_contained_per_episode
    (fetch : String → Dop.FetchRes) (today dlDir : String) (fs : Dop.Fs)
    (ep : Dop.Episode) (audioUrl dp jp : String)
    (fetchO : String → Oa.Fetch) (mem : List String) (podcastDir : String)
    (st : Oa.State) (ep2 : Oa.Episode) (t2 : String)
    (h2 : ep2.title = some t2) :
    (∀ left, fetch audioUrl = .fail left →
      ∃ F, Dop.fetchAndRecord fetch today dlDir fs ep audioUrl dp jp =
        .ok (F, Dop.DOutcome.failed)) ∧
    (∀ b, fetch audioUrl = .ok b →
      ∃ F, Dop.fetchAndRecord fetch today dlDir fs ep audioUrl dp jp =
        .ok (F, Dop.DOutcome.downloaded)) ∧
    (∃ r, Oa.download_episode fetchO mem podcastDir st ep2 = .ok r) := by
  refine ⟨?_, ?_, ?_⟩
  · intro left h
    refine ⟨Dop.save_rss_feed fetch today dlDir ep
      (Dop.Fs.set (Dop.download_url fetch audioUrl dp fs).1 jp
        (Dop.DFile.json ep.overcastId)), ?_⟩
    simp only [Dop.fetchAndRecord, h]
  · intro b h
    refine ⟨Dop.save_rss_feed fetch today dlDir ep
      (Dop.Fs.set (Dop.download_url fetch audioUrl dp fs).1 jp
        (Dop.DFile.json ep.overcastId)), ?_⟩
    simp only [Dop.fetchAndRecord, h]
  · by_cases hp : ep2.played = some "1"
    · cases hu : ep2.enclosureUrl with
      | none =>
        exact ⟨(st, [Oa.noUrlMsg ep2], Oa.Outcome.noUrl),
          by simp [Oa.download_episode, hp, hu]⟩
      | some mp3Url =>
        by_cases hm : Oa.hash_url mp3Url ∈ mem
        · exact ⟨(st, ["Episode " ++ t2 ++ " already exists. Skipping."],
            Oa.Outcome.alreadyExists),
            by simp [Oa.download_episode, hp, hu, hm, h2]⟩
        · cases hf : fetchO mp3Url with
          | badStatus =>
            exact ⟨(st, (Oa.mp3Path podcastDir (ep2.pubDate.getD "") t2).2 ++
              ["Downloading " ++ t2 ++ "...", "Failed to download the episode " ++ t2],
              Oa.Outcome.failed),
              by simp [Oa.download_episode, hp, hu, hm, h2, hf]⟩
          | interrupted d =>
            exact ⟨(⟨Dop.Fs.set st.fs (Oa.mp3Path podcastDir (ep2.pubDate.getD "") t2).1
                (Dop.DFile.media (Oa.joinChunks d)), st.log⟩,
              (Oa.mp3Path podcastDir (ep2.pubDate.getD "") t2).2 ++
                ["Downloading " ++ t2 ++ "...", "Failed to download the episode " ++ t2],
              Oa.Outcome.failed),
              by simp [Oa.download_episode, hp, hu, hm, h2, hf]⟩
          | ok c =>
            exact ⟨(⟨Dop.Fs.set st.fs (Oa.mp3Path podcastDir (ep2.pubDate.getD "") t2).1
                (Dop.DFile.media (Oa.joinChunks c)), st.log ++ [Oa.hash_url mp3Url]⟩,
              (Oa.mp3Path podcastDir (ep2.pubDate.getD "") t2).2 ++
                ["Downloading " ++ t2 ++ "..."],
              Oa.Outcome.downloaded),
              by simp [Oa.download_episode, hp, hu, hm, h2, hf]⟩
    · exact ⟨(st, [], Oa.Outcome.notPlayed), by simp [Oa.download_episode, hp]⟩

/-- Witness for the amended C3 at concrete inputs: a raised fetch yields a
`failed` outcome without aborting, and the Oa episode returns normally. -/
theorem fetch_errors_contained_per_episode_witness :
    (∃ F, Dop.fetchAndRecord (fun _ => Dop.FetchRes.fail none) "2026-10-12" "dl"
      Dop.emptyFs
      ⟨"P", "https://example.org/feed.xml", "Ep", "111", none, some "u"⟩
      "u" "dl/P/Ep.mp3" "dl/P/Ep.json" = .ok (F, Dop.DOutcome.failed)) ∧
    (∃ r, Oa.download_episode (fun _ => Oa.Fetch.badStatus) [] "podcasts/P"
      ⟨Dop.emptyFs, []⟩ ⟨some "1", some "Ep", none, some "u2"⟩ = .ok r) := by
  have h := fetch_errors_contained_per_episode (fun _ => Dop.FetchRes.fail none)
    "2026-10-12" "dl" Dop.emptyFs
    ⟨"P", "https://example.org/feed.xml", "Ep", "111", none, some "u"⟩
    "u" "dl/P/Ep.mp3" "dl/P/Ep.json"
    (fun _ => Oa.Fetch.badStatus) [] "podcasts/P" ⟨Dop.emptyFs, []⟩
    ⟨some "1", some "Ep", none, some "u2"⟩ "Ep" rfl
  exact ⟨h.1 none rfl, h.2.2⟩

/-! ### C4: concurrency bound and termination of the pool -/

/-- C4 counterexample: with 20 pending episodes of which the fourth lacks
its enclosure URL, the run processes three episodes and then aborts
through `fut.result()` with the `TypeError` raised inside `get_filename`;
the remaining backlog never reaches any terminal outcome, so it is not
the case that all 20 episodes eventually reach one. -/
theorem dop_abort_leaves_backlog_without_outcomes :
    c4Episodes.length = 20 ∧
    Dop.run (fun _ => Dop.FetchRes.ok "body") "2026-10-12" "dl" Dop.emptyFs
      c4Episodes =
      .error "TypeError: can only concatenate str (not bytes) to str" := by
  constructor
  · rfl
  · rfl

/-- Invariant of the refill loop reachable states: at most 5 in flight,
conservation of the 20 episodes, and - while the driver has not aborted -
a nonempty backlog implies a nonempty in-flight set. -/
theorem pool_inv : ∀ s, Pool.Reach (Pool.init 20 Dop.max_parallel_downloads) s →
    s.inflight ≤ 5 ∧ s.pending + s.inflight + s.finished = 20 ∧
      (s.aborted = false → 0 < s.pending → 0 < s.inflight) := by
  intro s h
  induction h with
  | refl => exact ⟨by decide, by decide, by decide⟩
  | @tail t u hr hs ih =>
    obtain ⟨i1, i2, i3⟩ := ih
    obtain ⟨p, i, f, a⟩ := t
    have i1' : i ≤ 5 := i1
    have i2' : p + i + f = 20 := i2
    cases hs with
    | wait d h1 h2 h3 =>
      have h2' : d ≤ i := h2
      have i3' : 0 < p → 0 < i := i3 h3
      refine ⟨?_, ?_, ?_⟩
      · show i - d + min d p ≤ 5
        omega
      · show p - min d p + (i - d + min d p) + (f + d) = 20
        omega
      · intro _
        show 0 < p - min d p → 0 < i - d + min d p
        omega
    | abort h1 h2 =>
      have h1' : 1 ≤ i := h1
      refine ⟨?_, ?_, ?_⟩
      · show (0 : Nat) ≤ 5
        omega
      · show p + 0 + (f + i) = 20
        omega
      · intro hcontra
        simp at hcontra

/-- C4 amended: every state reachable by the refill loop has at most 5
fetches in flight; every loop transition (completion round or
`fut.result()` abort) strictly decreases the measure `2*pending +
inflight`, so the loop terminates; and a final state reached without any
abort has all 20 episodes finished with a terminal outcome.  When an
episode raises, the `abort` transition fires instead and the remaining
backlog never reaches an outcome (see the counterexample). -/
theorem pool_bound_and_termination :
    ∀ s, Pool.Reach (Pool.init 20 Dop.max_parallel_downloads) s →
      s.inflight ≤ Dop.max_parallel_downloads ∧
      (∀ t, Pool.Step s t →
        2 * t.pending + t.inflight < 2 * s.pending + s.inflight) ∧
      ((∀ t, ¬ Pool.Step s t) → s.aborted = false → s.finished = 20) := by
  intro s h
  obtain ⟨i1, i2, i3⟩ := pool_inv s h
  obtain ⟨p, i, f, a⟩ := s
  have i1' : i ≤ 5 := i1
  have i2' : p + i + f = 20 := i2
  have i3' : a = false → 0 < p → 0 < i := i3
  refine ⟨i1, ?_, ?_⟩
  · intro t hstep
    cases hstep with
    | wait d h1 h2 h3 =>
      have h2' : d ≤ i := h2
      show 2 * (p - min d p) + (i - d + min d p) < 2 * p + i
      omega
    | abort h1 h2 =>
      have h1' : 1 ≤ i := h1
      show 2 * p + 0 < 2 * p + i
      omega
  · intro hstuck ha
    have ha' : a = false := ha
    subst ha'
    show f = 20
    by_cases hi : 0 < i
    · exact absurd
        (Pool.Step.wait ⟨p, i, f, false⟩ 1 (by omega) (show 1 ≤ i by omega) rfl)
        (hstuck _)
    · have hp0 : p = 0 := by
        by_contra hp
        have := i3' rfl (by omega)
        omega
      omega

/-- Witness for the amended C4 at the initial state (reachable by
reflexivity). -/
theorem pool_bound_and_termination_witness :
    (Pool.init 20 Dop.max_parallel_downloads).inflight ≤ Dop.max_parallel_downloads ∧
    (∀ t, Pool.Step (Pool.init 20 Dop.max_parallel_downloads) t →
      2 * t.pending + t.inflight <
        2 * (Pool.init 20 Dop.max_parallel_downloads).pending +
          (Pool.init 20 Dop.max_parallel_downloads).inflight) ∧
    ((∀ t, ¬ Pool.Step (Pool.init 20 Dop.max_parallel_downloads) t) →
      (Pool.init 20 Dop.max_parallel_downloads).aborted = false →
      (Pool.init 20 Dop.max_parallel_downloads).finished = 20) :=
  pool_bound_and_termination _ (Pool.Reach.refl _)

/-! ### C1: re-encountering a handled episode is a no-op (Dop run twice) -/

theorem mediaPathOf_eq (dlDir : String) (ep : Dop.Episode) (u : String)
    (hu : ep.enclosureUrl = some u) :
    Dop.mediaPathOf dlDir ep u = Dop.mediaPathD dlDir ep := by
  simp [Dop.mediaPathD, hu]

theorem save_rss_feed_frame (fetch : String → Dop.FetchRes) (today dlDir : String)
    (ep : Dop.Episode) (fs : Dop.Fs) (q : String)
    (hq : q ≠ Dop.feedPathOf today dlDir ep) :
    Dop.save_rss_feed fetch today dlDir ep fs q = fs q := by
  cases hfs : fs (Dop.feedPathOf today dlDir ep) with
  | some v => simp [Dop.save_rss_feed, hfs]
  | none =>
    simp only [Dop.save_rss_feed, hfs, Option.isSome_none, Bool.false_eq_true, if_false]
    unfold Dop.download_url
    cases fetch ep.podcastXmlUrl with
    | fail l => rfl
    | ok b => exact Fs_set_other _ _ _ _ hq

theorem download_episode_fresh (fetch : String → Dop.FetchRes) (today dlDir : String)
    (fs : Dop.Fs) (ep : Dop.Episode) (u : String)
    (hu : ep.enclosureUrl = some u)
    (hfree : fs (Dop.mediaPathD dlDir ep) = none) :
    Dop.download_episode fetch today dlDir fs ep =
      Dop.fetchAndRecord fetch today dlDir fs ep u
        (Dop.mediaPathD dlDir ep) (Dop.jsonPathOf dlDir ep) := by
  have hm := mediaPathOf_eq dlDir ep u hu
  simp only [Dop.download_episode, hu, hm, hfree]

theorem fetchAndRecord_ok (fetch : String → Dop.FetchRes) (today dlDir : String)
    (fs : Dop.Fs) (ep : Dop.Episode) (u b dp jp : String)
    (hb : fetch u = .ok b) :
    Dop.fetchAndRecord fetch today dlDir fs ep u dp jp =
      .ok (Dop.save_rss_feed fetch today dlDir ep
        (Dop.Fs.set (Dop.Fs.set fs dp (Dop.DFile.media b)) jp
          (Dop.DFile.json ep.overcastId)), Dop.DOutcome.downloaded) := by
  simp only [Dop.fetchAndRecord, Dop.download_url, hb]

/-- Effect of processing a fresh episode whose fetch succeeds: it is
downloaded, the media file and sidecar appear at their resolved paths, and
nothing outside its three paths changes. -/
theorem fresh_episode_effect (fetch : String → Dop.FetchRes) (today dlDir : String)
    (fs : Dop.Fs) (ep : Dop.Episode) (u b : String)
    (hu : ep.enclosureUrl = some u) (hb : fetch u = .ok b)
    (hfree : fs (Dop.mediaPathD dlDir ep) = none)
    (hmj : Dop.mediaPathD dlDir ep ≠ Dop.jsonPathOf dlDir ep)
    (hmf : Dop.mediaPathD dlDir ep ≠ Dop.feedPathOf today dlDir ep)
    (hjf : Dop.jsonPathOf dlDir ep ≠ Dop.feedPathOf today dlDir ep) :
    ∃ F, Dop.download_episode fetch today dlDir fs ep = .ok (F, Dop.DOutcome.downloaded) ∧
      F (Dop.mediaPathD dlDir ep) = some (Dop.DFile.media b) ∧
      F (Dop.jsonPathOf dlDir ep) = some (Dop.DFile.json ep.overcastId) ∧
      ∀ q, q ≠ Dop.mediaPathD dlDir ep → q ≠ Dop.jsonPathOf dlDir ep →
        q ≠ Dop.feedPathOf today dlDir ep → F q = fs q := by
  refine ⟨Dop.save_rss_feed fetch today dlDir ep
      (Dop.Fs.set (Dop.Fs.set fs (Dop.mediaPathD dlDir ep) (Dop.DFile.media b))
        (Dop.jsonPathOf dlDir ep) (Dop.DFile.json ep.overcastId)), ?_, ?_, ?_, ?_⟩
  · rw [download_episode_fresh fetch today dlDir fs ep u hu hfree,
      fetchAndRecord_ok fetch today dlDir fs ep u b _ _ hb]
  · rw [save_rss_feed_frame _ _ _ _ _ _ hmf, Fs_set_other _ _ _ _ hmj, Fs_set_same]
  · rw [save_rss_feed_frame _ _ _ _ _ _ hjf, Fs_set_same]
  · intro q hqm hqj hqf
    rw [save_rss_feed_frame _ _ _ _ _ _ hqf, Fs_set_other _ _ _ _ hqj,
      Fs_set_other _ _ _ _ hqm]

/-- Re-encounter: when the media file exists and the sidecar carries the
same overcast id, the episode is skipped and the tree is untouched
(lines 185-199). -/
theorem download_episode_skip (fetch : String → Dop.FetchRes) (today dlDir : String)
    (fs : Dop.Fs) (ep : Dop.Episode) (u f : String)
    (hu : ep.enclosureUrl = some u)
    (hm : fs (Dop.mediaPathD dlDir ep) = some (Dop.DFile.media f))
    (hj : fs (Dop.jsonPathOf dlDir ep) = some (Dop.DFile.json ep.overcastId)) :
    Dop.download_episode fetch today dlDir fs ep = .ok (fs, Dop.DOutcome.skipped) := by
  have hmp := mediaPathOf_eq dlDir ep u hu
  simp [Dop.download_episode, hu, hmp, hm, hj]

/-- A run over episodes that are all already satisfied skips every one of
them and leaves the tree identical. -/
theorem run_skips (fetch : String → Dop.FetchRes) (today dlDir : String) :
    ∀ (eps : List Dop.Episode) (F : Dop.Fs),
    (∀ ep ∈ eps, ∃ u f, ep.enclosureUrl = some u ∧
      F (Dop.mediaPathD dlDir ep) = some (Dop.DFile.media f) ∧
      F (Dop.jsonPathOf dlDir ep) = some (Dop.DFile.json ep.overcastId)) →
    Dop.run fetch today dlDir F eps = .ok (F, eps.map fun _ => Dop.DOutcome.skipped) := by
  intro eps
  induction eps with
  | nil => intro F _; rfl
  | cons ep rest ih =>
    intro F hall
    obtain ⟨u, f, hu, hm, hj⟩ := hall ep (List.mem_cons_self ep rest)
    have hskip := download_episode_skip fetch today dlDir F ep u f hu hm hj
    simp only [Dop.run, hskip]
    rw [ih F (fun e he => hall e (List.mem_cons_of_mem _ he))]
    rfl

/-- A first run from an output tree in which every episode is fresh
downloads each of them, establishing the media file and sidecar at each
episode's resolved paths, and touches nothing outside the episodes'
media, sidecar and feed-snapshot paths. -/
theorem run_builds (fetch : String → Dop.FetchRes) (today dlDir : String) :
    ∀ (eps : List Dop.Episode) (F : Dop.Fs),
    (∀ ep ∈ eps, ∃ u, ep.enclosureUrl = some u ∧ ∃ b, fetch u = .ok b) →
    (∀ ep ∈ eps, F (Dop.mediaPathD dlDir ep) = none) →
    (eps.map (Dop.mediaPathD dlDir)).Nodup →
    (eps.map (Dop.jsonPathOf dlDir)).Nodup →
    (∀ e ∈ eps, ∀ e2 ∈ eps,
      Dop.mediaPathD dlDir e ≠ Dop.jsonPathOf dlDir e2 ∧
      Dop.mediaPathD dlDir e ≠ Dop.feedPathOf today dlDir e2 ∧
      Dop.jsonPathOf dlDir e ≠ Dop.feedPathOf today dlDir e2) →
    ∃ F2 outs, Dop.run fetch today dlDir F eps = .ok (F2, outs) ∧
      (∀ ep ∈ eps, ∃ u f, ep.enclosureUrl = some u ∧
        F2 (Dop.mediaPathD dlDir ep) = some (Dop.DFile.media f) ∧
        F2 (Dop.jsonPathOf dlDir ep) = some (Dop.DFile.json ep.overcastId)) ∧
      (∀ q, F2 q ≠ F q → ∃ e ∈ eps, q = Dop.mediaPathD dlDir e ∨
        q = Dop.jsonPathOf dlDir e ∨ q = Dop.feedPathOf today dlDir e) := by
  intro eps
  induction eps with
  | nil =>
    intro F _ _ _ _ _
    exact ⟨F, [], rfl, by simp, by intro q hq; exact absurd rfl hq⟩
  | cons ep rest ih =>
    intro F hfetch hfree hMnd hJnd hsep
    obtain ⟨u, hu, b, hb⟩ := hfetch ep (List.mem_cons_self ep rest)
    have hsep_ee := hsep ep (List.mem_cons_self ep rest) ep (List.mem_cons_self ep rest)
    obtain ⟨F1, hrun1, hF1m, hF1j, hF1frame⟩ :=
      fresh_episode_effect fetch today dlDir F ep u b hu hb
        (hfree ep (List.mem_cons_self ep rest)) hsep_ee.1 hsep_ee.2.1 hsep_ee.2.2
    rw [List.map_cons, List.nodup_cons] at hMnd hJnd
    have hfree1 : ∀ e ∈ rest, F1 (Dop.mediaPathD dlDir e) = none := by
      intro e he
      have hne_m : Dop.mediaPathD dlDir e ≠ Dop.mediaPathD dlDir ep := by
        intro hcontra
        exact hMnd.1 (hcontra ▸ List.mem_map_of_mem _ he)
      have hne_j : Dop.mediaPathD dlDir e ≠ Dop.jsonPathOf dlDir ep :=
        (hsep e (List.mem_cons_of_mem _ he) ep (List.mem_cons_self ep rest)).1
      have hne_f : Dop.mediaPathD dlDir e ≠ Dop.feedPathOf today dlDir ep :=
        (hsep e (List.mem_cons_of_mem _ he) ep (List.mem_cons_self ep rest)).2.1
      rw [hF1frame _ hne_m hne_j hne_f]
      exact hfree e (List.mem_cons_of_mem _ he)
    obtain ⟨F2, outs, hrun2, hvals, hframe2⟩ :=
      ih F1 (fun e he => hfetch e (List.mem_cons_of_mem _ he)) hfree1 hMnd.2 hJnd.2
        (fun e he e2 he2 =>
          hsep e (List.mem_cons_of_mem _ he) e2 (List.mem_cons_of_mem _ he2))
    refine ⟨F2, Dop.DOutcome.downloaded :: outs, ?_, ?_, ?_⟩
    · simp only [Dop.run, hrun1, hrun2]
    · intro e he
      rcases List.mem_cons.1 he with rfl | he'
      · have hme : F2 (Dop.mediaPathD dlDir e) = F1 (Dop.mediaPathD dlDir e) := by
          by_contra hne
          obtain ⟨e2, he2, hcase⟩ := hframe2 _ hne
          rcases hcase with hc | hc | hc
          · exact hMnd.1 (hc ▸ List.mem_map_of_mem _ he2)
          · exact (hsep e (List.mem_cons_self e rest) e2 (List.mem_cons_of_mem _ he2)).1 hc
          · exact (hsep e (List.mem_cons_self e rest) e2 (List.mem_cons_of_mem _ he2)).2.1 hc
        have hje : F2 (Dop.jsonPathOf dlDir e) = F1 (Dop.jsonPathOf dlDir e) := by
          by_contra hne
          obtain ⟨e2, he2, hcase⟩ := hframe2 _ hne
          rcases hcase with hc | hc | hc
          · exact (hsep e2 (List.mem_cons_of_mem _ he2) e (List.mem_cons_self e rest)).1 hc.symm
          · exact hJnd.1 (hc ▸ List.mem_map_of_mem _ he2)
          · exact (hsep e (List.mem_cons_self e rest) e2 (List.mem_cons_of_mem _ he2)).2.2 hc
        exact ⟨u, b, hu, by rw [hme]; exact hF1m, by rw [hje]; exact hF1j⟩
      · exact hvals e he'
    · intro q hq
      by_cases h1 : F2 q = F1 q
      · have hq1 : F1 q ≠ F q := by rw [← h1]; exact hq
        by_cases hqm : q = Dop.mediaPathD dlDir ep
        · exact ⟨ep, List.mem_cons_self ep rest, Or.inl hqm⟩
        · by_cases hqj : q = Dop.jsonPathOf dlDir ep
          · exact ⟨ep, List.mem_cons_self ep rest, Or.inr (Or.inl hqj)⟩
          · by_cases hqf : q = Dop.feedPathOf today dlDir ep
            · exact ⟨ep, List.mem_cons_self ep rest, Or.inr (Or.inr hqf)⟩
            · exact absurd (hF1frame q hqm hqj hqf) hq1
      · obtain ⟨e2, he2, hc⟩ := hframe2 q h1
        exact ⟨e2, List.mem_cons_of_mem _ he2, hc⟩

/-- C1: under the conditions that make the first run complete cleanly
(every episode has an enclosure URL whose fetch succeeds, and the resolved
media, sidecar and feed paths of distinct episodes do not collide), a
first run from an empty output tree succeeds, and a second run of the
whole program over the same export and output tree returns the tree
unchanged with every episode skipped: re-encountering each
already-handled episode identity is a no-op, and at most one media file
and one sidecar exist per episode identity. -/
theorem dop_rerun_identical_and_skipped (fetch : String → Dop.FetchRes)
    (today dlDir : String) (eps : List Dop.Episode)
    (hfetch : ∀ ep ∈ eps, ∃ u, ep.enclosureUrl = some u ∧ ∃ b, fetch u = .ok b)
    (hMnd : (eps.map (Dop.mediaPathD dlDir)).Nodup)
    (hJnd : (eps.map (Dop.jsonPathOf dlDir)).Nodup)
    (hsep : ∀ e ∈ eps, ∀ e2 ∈ eps,
      Dop.mediaPathD dlDir e ≠ Dop.jsonPathOf dlDir e2 ∧
      Dop.mediaPathD dlDir e ≠ Dop.feedPathOf today dlDir e2 ∧
      Dop.jsonPathOf dlDir e ≠ Dop.feedPathOf today dlDir e2) :
    ∃ F outs, Dop.run fetch today dlDir Dop.emptyFs eps = .ok (F, outs) ∧
      Dop.run fetch today dlDir F eps =
        .ok (F, eps.map fun _ => Dop.DOutcome.skipped) := by
  obtain ⟨F, outs, h1, hvals, _⟩ :=
    run_builds fetch today dlDir eps Dop.emptyFs hfetch
      (fun e _ => rfl) hMnd hJnd hsep
  exact ⟨F, outs, h1, run_skips fetch today dlDir eps F hvals⟩

/-- Witness for C1 at a concrete one-episode export. -/
theorem dop_rerun_identical_and_skipped_witness :
    ∃ F outs,
      Dop.run (fun u => Dop.FetchRes.ok ("body " ++ u)) "2026-10-12" "audiofiles"
        Dop.emptyFs
        [⟨"P", "https://example.org/feed.xml", "Ep One", "111", none,
          some "https://example.net/files/1.mp3"⟩] = .ok (F, outs) ∧
      Dop.run (fun u => Dop.FetchRes.ok ("body " ++ u)) "2026-10-12" "audiofiles" F
        [⟨"P", "https://example.org/feed.xml", "Ep One", "111", none,
          some "https://example.net/files/1.mp3"⟩] =
        .ok (F, [(⟨"P", "https://example.org/feed.xml", "Ep One", "111", none,
          some "https://example.net/files/1.mp3"⟩ : Dop.Episode)].map
            fun _ => Dop.DOutcome.skipped) := by
  apply dop_rerun_identical_and_skipped
  · intro e he
    rw [List.mem_singleton] at he
    subst he
    exact ⟨_, rfl, _, rfl⟩
  · simp
  · simp
  · intro e he e2 he2
    rw [List.mem_singleton] at he he2
    subst he
    subst he2
    refine ⟨?_, ?_, ?_⟩ <;> decide
